import Mathlib

/-!
Shallow embedding of the chromium-bidi mapper core: the network intercept
registry (`NetworkStorage`), the per-target unblock procedure and fetch/network
domain toggling (`CdpTarget`), and the browsing-context processor
(`BrowsingContextProcessor`), translated from the TypeScript sources.

JavaScript `Map`s are modelled as association lists in insertion order
(`Map.set` with a fresh key appends; `Map.delete` removes the unique entry
with the key; iteration follows insertion order). `undefined` becomes
`Option.none`; thrown protocol exceptions become `Except.error`.
-/

/-- BiDi network intercept phases (protocol `Network.InterceptPhase`). -/
inductive InterceptPhase
  | beforeRequestSent
  | responseStarted
  | authRequired
deriving DecidableEq, Repr

/-- BiDi url patterns are kept abstract: the claims treat the matcher
`matchUrlPattern` (NetworkUtils) as a parameter, so a pattern is just its
source text. -/
abbrev UrlPattern := String

/-- Entry of the intercept registry (`NetworkInterception` in NetworkStorage):
parsed url patterns and the phases the intercept applies to. -/
structure NetworkInterception where
  urlPatterns : List UrlPattern
  phases : List InterceptPhase
deriving DecidableEq, Repr

/-- Intercept ids are uuid strings. -/
abbrev InterceptId := String

/-- The `#intercepts` map of NetworkStorage: intercept id to interception,
in insertion order. -/
abbrev InterceptMap := List (InterceptId × NetworkInterception)

/-- BiDi protocol errors surfaced by the modelled operations. -/
inductive BidiError
  | noSuchIntercept (message : String)
  | invalidArgument (message : String)
  | noSuchFrame (message : String)
deriving DecidableEq, Repr

/-- Whether the intercept map holds the given id (`Map.has`). -/
def interceptsHas (m : InterceptMap) (id : InterceptId) : Bool :=
  m.any (fun e => e.1 = id)

/-- Message of the `NoSuchInterceptException` thrown by
`NetworkStorage.removeIntercept`. -/
def noSuchInterceptMessage (id : InterceptId) : String :=
  "Intercept '" ++ id ++ "' does not exist."

/-- NetworkStorage.addIntercept: generates a uuid (`freshId` stands for the
`uuidv4()` result), inserts the interception under it, awaits
`toggleInterception`, and returns the id. -/
def addIntercept (m : InterceptMap) (freshId : InterceptId)
    (value : NetworkInterception) : InterceptMap × InterceptId :=
  (m ++ [(freshId, value)], freshId)

/-- Map.delete on the intercept registry: removes the entry with the key. -/
def interceptsDelete (m : InterceptMap) (id : InterceptId) : InterceptMap :=
  m.filter (fun e => ¬ e.1 = id)

/-- NetworkStorage.removeIntercept: throws `NoSuchInterceptException` when the
id is absent, otherwise deletes the entry and awaits `toggleInterception` to
re-synchronise the Fetch state (the returned `Bool` records that this
synchronisation step ran). -/
def removeIntercept (m : InterceptMap) (id : InterceptId) :
    Except BidiError (InterceptMap × Bool) :=
  if ¬ interceptsHas m id then
    .error (.noSuchIntercept (noSuchInterceptMessage id))
  else
    .ok (interceptsDelete m id, true)

/-- NetworkStorage.requestBlockedBy: iterates the intercept registry and
collects the ids whose phase list contains the phase and whose pattern list is
empty or has a pattern matching the url; returns the empty set when the
request's url or the phase is `undefined`. The JS `Set` (insertion order,
each id added at most once per entry) is modelled as the accumulated list.
`blockedByStep` is the body of the loop over the registry entries. -/
def blockedByStep (matchUrlPattern : UrlPattern → String → Bool) (u : String)
    (ph : InterceptPhase) (acc : List InterceptId)
    (e : InterceptId × NetworkInterception) : List InterceptId :=
  if ¬ e.2.phases.contains ph then acc
  else if e.2.urlPatterns.isEmpty then acc ++ [e.1]
  else if e.2.urlPatterns.any (fun p => matchUrlPattern p u) then acc ++ [e.1]
  else acc

def requestBlockedBy (m : InterceptMap) (matchUrlPattern : UrlPattern → String → Bool)
    (url : Option String) (phase : Option InterceptPhase) : List InterceptId :=
  match url, phase with
  | some u, some ph => m.foldl (blockedByStep matchUrlPattern u ph) []
  | _, _ => []

/-- Characterisation the claims state for one intercept entry: its phase list
contains the phase, and its pattern list is empty (match all) or has a
pattern matching the url. -/
def interceptMatches (f : UrlPattern → String → Bool) (u : String)
    (ph : InterceptPhase) (i : NetworkInterception) : Prop :=
  ph ∈ i.phases ∧ (i.urlPatterns = [] ∨ ∃ p ∈ i.urlPatterns, f p u = true)

/-- Parameters of the CDP `Network.requestWillBeSent` event, reduced to the
fields the NetworkStorage listener and the claims inspect. -/
structure RequestWillBeSentParams where
  requestId : String
  url : String
deriving DecidableEq, Repr

/-- Model of a `NetworkRequest` object. The class itself (NetworkRequest.ts)
is not among the sources, so its observable surface is modelled from the
spec: the BiDi request id (equal to the CDP request id), the fetch id set
when the request is paused, the url, the redirect count, whether the request
is currently in a redirecting state (`isRedirecting()`), whether `dispose()`
was called, and logs of the events delivered to it through
`onRequestWillBeSentEvent` and `handleRedirect`. -/
structure NetworkRequestModel where
  id : String
  fetchId : Option String
  url : Option String
  cdpSessionId : String
  redirectCount : Nat
  redirecting : Bool
  disposed : Bool
  seenRequestWillBeSent : List RequestWillBeSentParams
  seenRedirects : List RequestWillBeSentParams
deriving DecidableEq, Repr

/-- The `#requests` map of NetworkStorage in insertion order; `addRequest`
stores each request under its own id, so the key is the `id` field. -/
abbrev RequestMap := List NetworkRequestModel

/-- Construction `new NetworkRequest(id, eventManager, networkStorage,
cdpTarget, redirectCount)`; the target contributes its CDP session id. A
call that omits `redirectCount` passes 0 (modelled from the spec: a fresh
request starts its lifecycle with no redirects). -/
def mkNetworkRequest (id : String) (sessionId : String) (redirectCount : Nat) :
    NetworkRequestModel :=
  { id := id
    fetchId := none
    url := none
    cdpSessionId := sessionId
    redirectCount := redirectCount
    redirecting := false
    disposed := false
    seenRequestWillBeSent := []
    seenRedirects := [] }

/-- Modelled from the spec: `NetworkRequest.onRequestWillBeSentEvent` records
the event's url/method/headers on the request; the event itself is logged. -/
def onRequestWillBeSentEvent (r : NetworkRequestModel)
    (p : RequestWillBeSentParams) : NetworkRequestModel :=
  { r with
    url := some p.url
    seenRequestWillBeSent := r.seenRequestWillBeSent ++ [p] }

/-- Modelled from the spec: `NetworkRequest.handleRedirect` emits the pending
`responseStarted` completion for the previous attempt; the call is logged. -/
def handleRedirect (r : NetworkRequestModel) (p : RequestWillBeSentParams) :
    NetworkRequestModel :=
  { r with seenRedirects := r.seenRedirects ++ [p] }

/-- Modelled from the spec: `NetworkRequest.dispose` settles any BiDi promise
awaiting a phase; the object is marked disposed. -/
def disposeRequest (r : NetworkRequestModel) : NetworkRequestModel :=
  { r with disposed := true }

/-- NetworkStorage.getRequestById (`Map.get`). -/
def getRequestById (m : RequestMap) (id : String) : Option NetworkRequestModel :=
  m.find? (fun r => r.id = id)

/-- NetworkStorage.getRequestByFetchId: first stored request whose fetch id
equals the given one. -/
def getRequestByFetchId (m : RequestMap) (fetchId : String) :
    Option NetworkRequestModel :=
  m.find? (fun r => r.fetchId = some fetchId)

/-- NetworkStorage.addRequest (`Map.set` under the request's own, fresh id). -/
def addRequest (m : RequestMap) (r : NetworkRequestModel) : RequestMap :=
  m ++ [r]

/-- NetworkStorage.deleteRequest: looks the id up and, when present, disposes
the stored request and removes its entry; the second component is the list of
requests disposed by the call. -/
def deleteRequest (m : RequestMap) (id : String) :
    RequestMap × List NetworkRequestModel :=
  match getRequestById m id with
  | some r => (m.eraseP (fun x => x.id = id), [disposeRequest r])
  | none => (m, [])

/-- NetworkStorage.#getOrCreateNetworkRequest: the stored request with the
given id if any, otherwise a new one (with the given redirect count) that is
also added to the map. -/
def getOrCreateNetworkRequest (m : RequestMap) (id : String) (sessionId : String)
    (redirectCount : Nat) : RequestMap × NetworkRequestModel :=
  match getRequestById m id with
  | some r => (m, r)
  | none =>
    let r := mkNetworkRequest id sessionId redirectCount
    (addRequest m r, r)

/-- Mutation of the stored request with the given id in place (a JS method
call on the object held by the map). -/
def updateRequest (m : RequestMap) (id : String)
    (f : NetworkRequestModel → NetworkRequestModel) : RequestMap :=
  m.map (fun x => if x.id = id then f x else x)

/-- The `Network.requestWillBeSent` listener installed by
NetworkStorage.onCdpTargetCreated. When the stored request with the event's
id is in a redirecting state: `handleRedirect` is called on it, it is
disposed and removed (`deleteRequest`), and a new request is created under
the same id with redirect count one greater, which then receives the event.
Otherwise the stored (or a freshly created) request receives the event.
Returns the new map and the requests disposed by the call. -/
def onRequestWillBeSentListener (m : RequestMap) (sessionId : String)
    (p : RequestWillBeSentParams) : RequestMap × List NetworkRequestModel :=
  match getRequestById m p.requestId with
  | some r =>
    if r.redirecting then
      let m1 := updateRequest m p.requestId (fun x => handleRedirect x p)
      let del := deleteRequest m1 p.requestId
      let oc :=
        getOrCreateNetworkRequest del.1 p.requestId sessionId (r.redirectCount + 1)
      (updateRequest oc.1 oc.2.id (fun x => onRequestWillBeSentEvent x p), del.2)
    else
      (updateRequest m p.requestId (fun x => onRequestWillBeSentEvent x p), [])
  | none =>
    let oc := getOrCreateNetworkRequest m p.requestId sessionId 0
    (updateRequest oc.1 oc.2.id (fun x => onRequestWillBeSentEvent x p), [])

/-- NetworkStorage.disposeRequestMap: collects the stored requests whose CDP
client belongs to the given session, then disposes each and deletes its entry
by id. Returns the resulting map and the disposed requests. -/
def disposeRequestMap (m : RequestMap) (sessionId : String) :
    RequestMap × List NetworkRequestModel :=
  let requests := m.filter (fun r => r.cdpSessionId = sessionId)
  (requests.foldl (fun acc r => acc.eraseP (fun x => x.id = r.id)) m,
   requests.map disposeRequest)

/-- Parameters of the CDP `Fetch.authRequired` event. The request id may be
`undefined` (CDP quirk when the Network domain is absent). -/
structure AuthRequiredEvent where
  requestId : Option String
deriving DecidableEq, Repr

/-- Observable actions of NetworkStorage.#handleAuthInterception: either the
`Fetch.continueWithAuth` command it sends itself (with the given
`authChallengeResponse.response`), or the delegation
`request.onAuthRequired(event)` to a tracked request — the only path on which
a BiDi event for the challenge can be emitted. -/
inductive AuthAction
  | sendContinueWithAuth (requestId : Option String) (response : String)
  | delegateOnAuthRequired (requestId : String)
deriving DecidableEq, Repr

/-- NetworkStorage.#handleAuthInterception: looks the paused request up by
fetch id (`event.requestId ?? ''`); when none is tracked, immediately sends
`Fetch.continueWithAuth` for the event's request id with response
`"Default"`; otherwise delegates to the request. -/
def handleAuthInterception (m : RequestMap) (event : AuthRequiredEvent) :
    List AuthAction :=
  match getRequestByFetchId m (event.requestId.getD "") with
  | none => [AuthAction.sendContinueWithAuth event.requestId "Default"]
  | some r => [AuthAction.delegateOnAuthRequired r.id]

/-- Fetch-domain stages of a CdpTarget (`FetchStages` in CdpTarget.ts). -/
structure FetchStages where
  request : Bool
  response : Bool
  auth : Bool
deriving DecidableEq, Repr

/-- Stage component of a `Fetch.enable` request pattern. -/
inductive RequestStage
  | request
  | response
deriving DecidableEq, Repr

/-- Entry of the `patterns` argument of `Fetch.enable`. -/
structure FetchPattern where
  urlPattern : String
  requestStage : RequestStage
deriving DecidableEq, Repr

/-- Patterns CdpTarget.#enableFetch builds from the stages: a `*`/Request
pattern when request or auth interception is on (CDP quirk: auth requires
request interception), a `*`/Response pattern when response interception is
on. -/
def fetchPatterns (stages : FetchStages) : List FetchPattern :=
  (if stages.request || stages.auth then
    [{ urlPattern := "*", requestStage := RequestStage.request }]
  else []) ++
  (if stages.response then
    [{ urlPattern := "*", requestStage := RequestStage.response }]
  else [])

/-- Mutable per-target domain state of a CdpTarget: `#networkDomainEnabled`
and `#fetchDomainStages`. -/
structure CdpTargetState where
  networkDomainEnabled : Bool
  fetchDomainStages : FetchStages
deriving DecidableEq, Repr

/-- CDP command observable for the fetch-toggling fragment. -/
inductive FetchCommand
  | fetchEnable (patterns : List FetchPattern) (handleAuthRequests : Bool)
deriving DecidableEq, Repr

/-- CdpTarget.#enableFetch: builds the patterns; when the Network domain is
enabled and the patterns are non-empty, records the new stages and sends
`Fetch.enable`; when that command throws (`fetchEnableSucceeds = false`) the
previous stages are restored. Returns the resulting state and the commands
sent. -/
def enableFetch (st : CdpTargetState) (stages : FetchStages)
    (fetchEnableSucceeds : Bool) : CdpTargetState × List FetchCommand :=
  let patterns := fetchPatterns stages
  if st.networkDomainEnabled && ¬ patterns.isEmpty then
    let oldStages := st.fetchDomainStages
    let st1 : CdpTargetState := { st with fetchDomainStages := stages }
    if fetchEnableSucceeds then
      (st1, [FetchCommand.fetchEnable patterns stages.auth])
    else
      ({ st1 with fetchDomainStages := oldStages },
       [FetchCommand.fetchEnable patterns stages.auth])
  else
    (st, [])

/-- A browsing context as the processor claims observe it: id, parent
(`none` for a top-level context), user-context id, and an abstract token for
the CdpTarget it is bound to. -/
structure BrowsingContextModel where
  id : String
  parent : Option String
  userContext : String
  cdpTargetToken : Nat
deriving DecidableEq, Repr

/-- The BrowsingContextStorage contents, in creation order. -/
abbrev ContextStorage := List BrowsingContextModel

/-- CDP target types dispatched by
BrowsingContextProcessor.#handleAttachedToTargetEvent. -/
inductive TargetType
  | page
  | iframe
  | worker
  | serviceWorker
  | sharedWorker
  | other
deriving DecidableEq, Repr

/-- The `targetInfo` fields the attach handler reads. `browserContextId` is
optional in CDP. -/
structure TargetInfoModel where
  type : TargetType
  targetId : String
  browserContextId : Option String
deriving DecidableEq, Repr

/-- Outcome of one `Target.attachedToTarget` event: the existing context was
rebound to a new CdpTarget (OOPIF swap), a new context was created, a worker
realm path was taken, or the target was released and detached (self target,
terminated worker, unsupported type). -/
inductive AttachOutcome
  | rebound (contextId : String)
  | created (contextId : String) (userContext : String)
  | workerHandled
  | releasedAndDetached
deriving DecidableEq, Repr

/-- BrowsingContextProcessor.#handleAttachedToTargetEvent. For page/iframe
targets other than the mapper's self target: a CdpTarget is constructed
(`freshTargetToken`), then the context with the target id is rebound when it
exists (OOPIF; `BrowsingContextImpl.updateCdpTarget`, modelled from the spec:
only the CdpTarget pointer is replaced), otherwise a new top-level context is
created (`BrowsingContextImpl.create`, modelled from the spec: registers one
new context) whose user context is `targetInfo.browserContextId` unless that
is absent (JS-falsy, so also the empty string) or equals the default
user-context id, in which case `"default"`. Worker targets take the realm
path when the owning realm is found; everything else (including the self
target, via the `break`) releases the debugger and detaches. -/
def handleAttachedToTarget (selfTargetId defaultUserContextId : String)
    (contexts : ContextStorage) (ti : TargetInfoModel) (freshTargetToken : Nat)
    (workerRealmFound : Bool) : ContextStorage × AttachOutcome :=
  match ti.type with
  | TargetType.page | TargetType.iframe =>
    if ti.targetId = selfTargetId then
      (contexts, AttachOutcome.releasedAndDetached)
    else
      match contexts.find? (fun c => c.id = ti.targetId) with
      | some _ =>
        (contexts.map (fun c =>
          if c.id = ti.targetId then { c with cdpTargetToken := freshTargetToken }
          else c),
         AttachOutcome.rebound ti.targetId)
      | none =>
        let userContext :=
          match ti.browserContextId with
          | some b => if b ≠ "" ∧ b ≠ defaultUserContextId then b else "default"
          | none => "default"
        (contexts ++
          [{ id := ti.targetId
             parent := none
             userContext := userContext
             cdpTargetToken := freshTargetToken }],
         AttachOutcome.created ti.targetId userContext)
  | TargetType.worker | TargetType.serviceWorker =>
    if workerRealmFound then (contexts, AttachOutcome.workerHandled)
    else (contexts, AttachOutcome.releasedAndDetached)
  | TargetType.sharedWorker => (contexts, AttachOutcome.workerHandled)
  | TargetType.other => (contexts, AttachOutcome.releasedAndDetached)

/-- BrowsingContextImpl.isTopLevelContext: a context with no parent. -/
def isTopLevelContext (c : BrowsingContextModel) : Bool :=
  c.parent = none

/-- CDP command observable for `browsingContext.setViewport`. -/
inductive ViewportCommand
  | setDeviceMetricsOverride (contextId : String)
deriving DecidableEq, Repr

/-- BrowsingContextProcessor.setViewport: looks the context up (unknown ids
throw before anything else), throws `InvalidArgumentException` for a context
that is not top-level, and only otherwise forwards to
`BrowsingContextImpl.setViewport` (modelled from the spec: that call issues
the emulation CDP command). The first component lists the CDP commands
issued, the second the protocol error thrown, if any. -/
def setViewport (contexts : ContextStorage) (contextId : String) :
    List ViewportCommand × Option BidiError :=
  match contexts.find? (fun c => c.id = contextId) with
  | none => ([], some (BidiError.noSuchFrame contextId))
  | some c =>
    if ¬ isTopLevelContext c then
      ([], some (BidiError.invalidArgument
        "Emulating viewport is only supported on the top-level context"))
    else
      ([ViewportCommand.setDeviceMetricsOverride c.id], none)

/-- CDP commands issued during CdpTarget.#unblock. Each matching preload
script contributes one installation command
(`Page.addScriptToEvaluateOnNewDocument`, sent by
`PreloadScript.initInTarget`, modelled from the spec: installation sends one
CDP command per script and waits for the assigned id). -/
inductive UnblockCommand
  | runtimeEnable
  | pageEnable
  | pageSetLifecycleEventsEnabled
  | securitySetIgnoreCertificateErrors
  | networkEnable
  | fetchEnable
  | targetSetAutoAttach
  | preloadScriptInstall (index : Nat)
  | runtimeRunIfWaitingForDebugger
deriving DecidableEq, Repr

/-- Trace events of an unblock run: a command's send is initiated (`issue`),
or its CDP response arrives and its promise settles (`complete`). -/
inductive UnblockEvent
  | issue (c : UnblockCommand)
  | complete (c : UnblockCommand)
deriving DecidableEq, Repr

/-- Environment of one unblock run: whether any BiDi subscriber is subscribed
to the `network` module for this target (`isSubscribedTo`), the interception
stages NetworkStorage reports for the target's top-level id, and how many
preload scripts match the target. At unblock time the target state is fresh:
`#networkDomainEnabled = false` and `#fetchDomainStages` all false. -/
structure UnblockEnv where
  networkSubscribed : Bool
  interceptionStages : FetchStages
  preloadScriptCount : Nat
deriving DecidableEq, Repr

/-- Whether any interception stage is requested (`Object.values(stages).some`). -/
def fetchStageNeeded (s : FetchStages) : Bool :=
  s.request || s.response || s.auth

/-- Commands `toggleNetwork` issues before its first suspension when called
from `#unblock` on the fresh state: `networkChanged` equals the subscription
flag and `fetchChanged` equals `fetchStageNeeded`, so the synchronous part
sends `Network.enable` exactly when the module is subscribed; `#enableFetch`
without an enabled Network domain sends nothing. -/
def toggleNetworkSyncCommands (env : UnblockEnv) : List UnblockCommand :=
  if env.networkSubscribed then [UnblockCommand.networkEnable] else []

/-- Commands `toggleNetwork` issues only after awaiting `Network.enable`:
`#enableFetch` sends `Fetch.enable` when the domain was just enabled and some
interception stage is requested. -/
def toggleNetworkDeferredCommands (env : UnblockEnv) : List UnblockCommand :=
  if env.networkSubscribed && fetchStageNeeded env.interceptionStages then
    [UnblockCommand.fetchEnable]
  else []

/-- Commands installing the matching preload scripts. -/
def preloadInstallCommands (env : UnblockEnv) : List UnblockCommand :=
  (List.range env.preloadScriptCount).map UnblockCommand.preloadScriptInstall

/-- Sends initiated synchronously by CdpTarget.#unblock: `Promise.all`
evaluates its array in order, and each `sendCommand` (and each async helper
up to its first await) runs synchronously, so every one of these commands —
`Runtime.runIfWaitingForDebugger` included, as the last array element — has
been sent before any response can be processed. -/
def unblockSyncIssues (env : UnblockEnv) : List UnblockCommand :=
  [UnblockCommand.runtimeEnable,
   UnblockCommand.pageEnable,
   UnblockCommand.pageSetLifecycleEventsEnabled,
   UnblockCommand.securitySetIgnoreCertificateErrors] ++
  toggleNetworkSyncCommands env ++
  [UnblockCommand.targetSetAutoAttach] ++
  preloadInstallCommands env ++
  [UnblockCommand.runtimeRunIfWaitingForDebugger]

/-- Trace of the unblock run in which every command succeeds: the synchronous
batch of sends, then the responses (observed in issue order), then the
continuation of `toggleNetwork` that runs once `Network.enable` has settled
and issues `Fetch.enable`. -/
def unblockTrace (env : UnblockEnv) : List UnblockEvent :=
  (unblockSyncIssues env).map UnblockEvent.issue ++
  (unblockSyncIssues env).map UnblockEvent.complete ++
  (toggleNetworkDeferredCommands env).foldr
    (fun c acc => UnblockEvent.issue c :: UnblockEvent.complete c :: acc) []

/-- Concrete unblock environment for claim C1: no network subscription, no
interception, no preload scripts. -/
def c1Env : UnblockEnv :=
  { networkSubscribed := false
    interceptionStages := { request := false, response := false, auth := false }
    preloadScriptCount := 0 }

/-- Resolution values of the `#unblocked` deferred (`Result<void>`). -/
inductive UnblockResolution (ε : Type)
  | success
  | failure (error : ε)
deriving DecidableEq, Repr

/-- Rejection the `Promise.all` over the unblock steps reports: the first
step, in settlement order, to fail — `none` when every step succeeded.
`outcomes` lists each step's outcome in settlement order (`none` = the step
fulfilled, `some e` = it rejected with `e`). -/
def promiseAllRejection {ε : Type} (outcomes : List (Option ε)) : Option ε :=
  outcomes.findSome? id

/-- Resolutions of the `#unblocked` deferred performed by one run of
CdpTarget.#unblock, in order: when the awaited batch throws an error that
`isCloseError` does not classify as a close error, the catch block resolves
with that error and returns; otherwise (the batch succeeded, or the target
merely closed) control reaches the final resolve with success. -/
def unblockResolutions {ε : Type} (isCloseError : ε → Bool)
    (outcomes : List (Option ε)) : List (UnblockResolution ε) :=
  match promiseAllRejection outcomes with
  | some error =>
    if ¬ isCloseError error then [UnblockResolution.failure error]
    else [UnblockResolution.success]
  | none => [UnblockResolution.success]

/-!
Theorems. Helper lemmas are shared; each claim is settled by one theorem
(with a closed witness where the theorem carries hypotheses).
-/

/-- Claim C2: for every intercept id returned by addIntercept, a first call
to removeIntercept with that id succeeds — deleting the entry and running the
fetch-state synchronisation — and every later call with the same id, as well
as any call with an id never returned by addIntercept, throws
NoSuchInterceptException with message "Intercept '<id>' does not exist.". -/
theorem c2_removeIntercept_once (m : InterceptMap) (freshId : InterceptId)
    (v : NetworkInterception) (hFresh : interceptsHas m freshId = false) :
    removeIntercept (addIntercept m freshId v).1 (addIntercept m freshId v).2
        = Except.ok (m, true)
    ∧ removeIntercept m freshId
        = Except.error (BidiError.noSuchIntercept (noSuchInterceptMessage freshId))
    ∧ ∀ (m2 : InterceptMap) (id : InterceptId), interceptsHas m2 id = false →
        removeIntercept m2 id
          = Except.error (BidiError.noSuchIntercept (noSuchInterceptMessage id)) := by
  have hall : ∀ e ∈ m, ¬ e.1 = freshId := by
    intro e he
    have := List.any_eq_false.mp hFresh e he
    simpa using this
  refine ⟨?_, ?_, ?_⟩
  · have h1 : interceptsHas (m ++ [(freshId, v)]) freshId = true := by
      simp [interceptsHas]
    have h2 : interceptsDelete (m ++ [(freshId, v)]) freshId = m := by
      unfold interceptsDelete
      rw [List.filter_append]
      have hm : m.filter (fun e => ¬ e.1 = freshId) = m :=
        List.filter_eq_self.mpr (by intro e he; simpa using hall e he)
      rw [hm]
      simp
    simp [removeIntercept, addIntercept, h1, h2]
  · simp [removeIntercept, hFresh]
  · intro m2 id h
    simp [removeIntercept, h]

/-- Witness for C2 at a concrete registry. -/
theorem c2_removeIntercept_once_witness :
    removeIntercept
        (addIntercept [("id-a", { urlPatterns := [], phases := [InterceptPhase.authRequired] })]
          "id-b" { urlPatterns := ["p"], phases := [] }).1
        (addIntercept [("id-a", { urlPatterns := [], phases := [InterceptPhase.authRequired] })]
          "id-b" { urlPatterns := ["p"], phases := [] }).2
      = Except.ok ([("id-a", { urlPatterns := [], phases := [InterceptPhase.authRequired] })], true) :=
  (c2_removeIntercept_once
    [("id-a", { urlPatterns := [], phases := [InterceptPhase.authRequired] })]
    "id-b" { urlPatterns := ["p"], phases := [] } (by decide)).1

/-- Claim C3: the recorded fetch-domain stages change only when the
Fetch.enable command succeeds — when it throws, the previous stages are
restored, and when no command is sent the state is unchanged. -/
theorem c3_enableFetch_stage_recording (st : CdpTargetState) (stages : FetchStages)
    (ok : Bool) :
    (enableFetch st stages false).1.fetchDomainStages = st.fetchDomainStages
    ∧ ((enableFetch st stages ok).2 = [] → (enableFetch st stages ok).1 = st)
    ∧ ((enableFetch st stages ok).1.fetchDomainStages ≠ st.fetchDomainStages →
        ok = true ∧ (enableFetch st stages ok).2
          = [FetchCommand.fetchEnable (fetchPatterns stages) stages.auth]) := by
  unfold enableFetch
  by_cases hn : st.networkDomainEnabled <;>
    by_cases hp : fetchPatterns stages = [] <;>
      cases ok <;> simp [hn, hp]

/-- Claim C4: when a Fetch.authRequired event arrives and no tracked request
has the event's fetch id, the mapper immediately sends Fetch.continueWithAuth
with authChallengeResponse.response = "Default" and takes no other action —
in particular the delegation that could emit a BiDi event does not happen. -/
theorem c4_authRequired_default (m : RequestMap) (event : AuthRequiredEvent)
    (h : ∀ r ∈ m, r.fetchId ≠ some (event.requestId.getD "")) :
    handleAuthInterception m event
      = [AuthAction.sendContinueWithAuth event.requestId "Default"] := by
  unfold handleAuthInterception getRequestByFetchId
  rw [List.find?_eq_none.mpr]
  intro r hr
  simpa using h r hr

/-- Witness for C4: an auth challenge whose fetch id matches no tracked
request. -/
theorem c4_authRequired_default_witness :
    handleAuthInterception [mkNetworkRequest "req-1" "sess-1" 0]
        { requestId := some "fetch-9" }
      = [AuthAction.sendContinueWithAuth (some "fetch-9") "Default"] :=
  c4_authRequired_default [mkNetworkRequest "req-1" "sess-1" 0]
    { requestId := some "fetch-9" } (by decide)

/-- Claim C8: one run of CdpTarget.#unblock resolves the unblocked deferred
exactly once; when every step succeeds, or the reported failure is a
close-class error, it resolves as success, and when the reported failure is
any other error it resolves as that error. -/
theorem c8_unblocked_resolves_once {ε : Type} (isCloseError : ε → Bool)
    (outcomes : List (Option ε)) :
    (unblockResolutions isCloseError outcomes).length = 1
    ∧ ((∀ o ∈ outcomes, o = none) →
        unblockResolutions isCloseError outcomes = [UnblockResolution.success])
    ∧ (∀ e, promiseAllRejection outcomes = some e → isCloseError e = true →
        unblockResolutions isCloseError outcomes = [UnblockResolution.success])
    ∧ (∀ e, promiseAllRejection outcomes = some e → isCloseError e = false →
        unblockResolutions isCloseError outcomes = [UnblockResolution.failure e]) := by
  refine ⟨?_, ?_, ?_, ?_⟩
  · unfold unblockResolutions
    cases hr : promiseAllRejection outcomes with
    | none => simp
    | some e => by_cases hc : isCloseError e <;> simp [hc]
  · intro hall
    have hr : promiseAllRejection outcomes = none := by
      unfold promiseAllRejection
      rw [List.findSome?_eq_none_iff]
      intro o ho
      simpa using hall o ho
    simp [unblockResolutions, hr]
  · intro e hr hc
    simp [unblockResolutions, hr, hc]
  · intro e hr hc
    simp [unblockResolutions, hr, hc]

/-- Claim C9: browsingContext.setViewport on a context that exists but is not
top-level raises InvalidArgumentException and issues no CDP command. -/
theorem c9_setViewport_non_top_level (contexts : ContextStorage) (cid : String)
    (c : BrowsingContextModel)
    (hFind : contexts.find? (fun x => x.id = cid) = some c)
    (hChild : isTopLevelContext c = false) :
    setViewport contexts cid
      = ([], some (BidiError.invalidArgument
          "Emulating viewport is only supported on the top-level context")) := by
  unfold setViewport
  rw [hFind]
  simp [hChild]

/-- Witness for C9: a child frame context. -/
theorem c9_setViewport_non_top_level_witness :
    setViewport
        [{ id := "top", parent := none, userContext := "default", cdpTargetToken := 0 },
         { id := "frame", parent := some "top", userContext := "default", cdpTargetToken := 0 }]
        "frame"
      = ([], some (BidiError.invalidArgument
          "Emulating viewport is only supported on the top-level context")) :=
  c9_setViewport_non_top_level _ "frame"
    { id := "frame", parent := some "top", userContext := "default", cdpTargetToken := 0 }
    (by decide) (by decide)

lemma mem_blockedByStep (f : UrlPattern → String → Bool) (u : String)
    (ph : InterceptPhase) (acc : List InterceptId)
    (e : InterceptId × NetworkInterception) (id : InterceptId) :
    id ∈ blockedByStep f u ph acc e ↔
      id ∈ acc ∨ (e.1 = id ∧ interceptMatches f u ph e.2) := by
  unfold blockedByStep
  by_cases h1 : ph ∈ e.2.phases
  · rw [if_neg (by simpa using h1)]
    by_cases h2 : e.2.urlPatterns = []
    · rw [if_pos (by simpa using h2)]
      constructor
      · intro h
        rcases List.mem_append.mp h with h | h
        · exact Or.inl h
        · have hid : id = e.1 := by simpa using h
          exact Or.inr ⟨hid.symm, h1, Or.inl h2⟩
      · rintro (h | ⟨he, _⟩)
        · exact List.mem_append_left _ h
        · exact List.mem_append_right _ (by simp [he])
    · rw [if_neg (by simpa using h2)]
      by_cases h3 : ∃ p ∈ e.2.urlPatterns, f p u = true
      · rw [if_pos (by simpa using h3)]
        constructor
        · intro h
          rcases List.mem_append.mp h with h | h
          · exact Or.inl h
          · have hid : id = e.1 := by simpa using h
            exact Or.inr ⟨hid.symm, h1, Or.inr h3⟩
        · rintro (h | ⟨he, _⟩)
          · exact List.mem_append_left _ h
          · exact List.mem_append_right _ (by simp [he])
      · rw [if_neg (by simpa using h3)]
        constructor
        · exact Or.inl
        · rintro (h | ⟨he, hm⟩)
          · exact h
          · rcases hm.2 with h | h
            · exact absurd h h2
            · exact absurd h h3
  · rw [if_pos (by simpa using h1)]
    constructor
    · exact Or.inl
    · rintro (h | ⟨he, hm⟩)
      · exact h
      · exact absurd hm.1 h1

lemma mem_foldl_blockedByStep (f : UrlPattern → String → Bool) (u : String)
    (ph : InterceptPhase) (l : InterceptMap) (acc : List InterceptId)
    (id : InterceptId) :
    id ∈ l.foldl (blockedByStep f u ph) acc ↔
      id ∈ acc ∨ ∃ i, (id, i) ∈ l ∧ interceptMatches f u ph i := by
  induction l generalizing acc with
  | nil => simp
  | cons e l ih =>
    rw [List.foldl_cons, ih]
    constructor
    · rintro (h | ⟨i, hi, hm⟩)
      · rcases (mem_blockedByStep f u ph acc e id).mp h with h | ⟨he, hm⟩
        · exact Or.inl h
        · exact Or.inr ⟨e.2, by simp [← he], hm⟩
      · exact Or.inr ⟨i, List.mem_cons_of_mem e hi, hm⟩
    · rintro (h | ⟨i, hi, hm⟩)
      · exact Or.inl ((mem_blockedByStep f u ph acc e id).mpr (Or.inl h))
      · rcases List.mem_cons.mp hi with h | h
        · refine Or.inl ((mem_blockedByStep f u ph acc e id).mpr (Or.inr ?_))
          have h1 : e.1 = id := by
            have := congrArg Prod.fst h
            simpa using this.symm
          have h2 : e.2 = i := by
            have := congrArg Prod.snd h
            simpa using this.symm
          exact ⟨h1, h2 ▸ hm⟩
        · exact Or.inr ⟨i, h, hm⟩

/-- Claim C6: for a request with a defined url and a defined phase,
requestBlockedBy returns exactly the intercept ids whose phase list contains
the phase and whose url-pattern list is empty or contains a matching pattern;
with an undefined url or phase it returns the empty set. -/
theorem c6_requestBlockedBy_matches (m : InterceptMap)
    (f : UrlPattern → String → Bool) (u : String) (ph : InterceptPhase) :
    (∀ id, id ∈ requestBlockedBy m f (some u) (some ph) ↔
        ∃ i, (id, i) ∈ m ∧ interceptMatches f u ph i)
    ∧ requestBlockedBy m f none (some ph) = []
    ∧ requestBlockedBy m f (some u) none = []
    ∧ requestBlockedBy m f none none = [] := by
  refine ⟨fun id => ?_, rfl, rfl, rfl⟩
  rw [requestBlockedBy, mem_foldl_blockedByStep]
  simp

lemma eraseP_id_eq_filter (m : RequestMap) (id : String)
    (h : (m.map (fun r => r.id)).Nodup) :
    m.eraseP (fun x => x.id = id) = m.filter (fun x => ¬ x.id = id) := by
  induction m with
  | nil => rfl
  | cons r m ih =>
    rw [List.map_cons, List.nodup_cons] at h
    by_cases hr : r.id = id
    · have hall : List.filter (fun x => !decide (x.id = id)) m = m := by
        apply List.filter_eq_self.mpr
        intro x hx
        have hne : x.id ≠ r.id := fun he =>
          h.1 (by rw [← he]; exact List.mem_map_of_mem (fun r => r.id) hx)
        simp [hr ▸ hne]
      simp only [List.eraseP_cons, List.filter_cons, hr, decide_True, cond_true,
        decide_not, Bool.not_true, Bool.false_eq_true, if_false]
      exact hall.symm
    · simp [List.eraseP_cons, List.filter_cons, hr, ih h.2]

lemma foldl_eraseP_eq_filter (rs : List NetworkRequestModel) (acc : RequestMap)
    (h : (acc.map (fun r => r.id)).Nodup) :
    rs.foldl (fun a r => a.eraseP (fun x => x.id = r.id)) acc
      = acc.filter (fun x => ¬ x.id ∈ rs.map (fun r => r.id)) := by
  induction rs generalizing acc with
  | nil => simp
  | cons r rs ih =>
    rw [List.foldl_cons, eraseP_id_eq_filter acc r.id h]
    have hsub : ((acc.filter (fun x => ¬ x.id = r.id)).map (fun r => r.id)).Nodup :=
      ((acc.filter_sublist).map (fun r => r.id)).nodup h
    rw [ih _ hsub, List.filter_filter]
    apply List.filter_congr
    intro x hx
    by_cases h1 : x.id = r.id <;>
      by_cases h2 : x.id ∈ rs.map (fun r => r.id) <;> simp [h1, h2]

lemma session_ids_filter (m : RequestMap) (s : String)
    (h : (m.map (fun r => r.id)).Nodup) (x : NetworkRequestModel) (hx : x ∈ m) :
    x.id ∈ (m.filter (fun r => r.cdpSessionId = s)).map (fun r => r.id) ↔
      x.cdpSessionId = s := by
  constructor
  · intro hmem
    rcases List.mem_map.mp hmem with ⟨y, hy, hid⟩
    have hy2 := List.mem_filter.mp hy
    have hyx : y = x := List.inj_on_of_nodup_map h (List.mem_of_mem_filter hy) hx hid
    have hys : y.cdpSessionId = s := by simpa using hy2.2
    rw [← hyx]
    exact hys
  · intro hs
    exact List.mem_map.mpr ⟨x, List.mem_filter.mpr ⟨hx, by simpa using hs⟩, rfl⟩

/-- Claim C10: disposeRequestMap removes from the request map exactly the
requests whose CDP client belongs to the given session — disposing each of
them — and every request of any other session stays in the map unmodified. -/
theorem c10_disposeRequestMap_exact (m : RequestMap) (s : String)
    (h : (m.map (fun r => r.id)).Nodup) :
    (disposeRequestMap m s).1 = m.filter (fun r => ¬ r.cdpSessionId = s)
    ∧ (disposeRequestMap m s).2
        = (m.filter (fun r => r.cdpSessionId = s)).map disposeRequest
    ∧ ∀ r ∈ m, ¬ r.cdpSessionId = s → r ∈ (disposeRequestMap m s).1 := by
  have h1 : (disposeRequestMap m s).1 = m.filter (fun r => ¬ r.cdpSessionId = s) := by
    unfold disposeRequestMap
    dsimp only
    rw [foldl_eraseP_eq_filter _ _ h]
    apply List.filter_congr
    intro x hx
    have hiff := session_ids_filter m s h x hx
    by_cases h2 : x.cdpSessionId = s
    · simp [h2, hiff.mpr h2]
    · have hni : ¬ x.id ∈ (m.filter (fun r => r.cdpSessionId = s)).map
          (fun r => r.id) := fun hm => h2 (hiff.mp hm)
      simp [h2, hni]
  refine ⟨h1, rfl, ?_⟩
  intro r hr hs
  rw [h1]
  exact List.mem_filter.mpr ⟨hr, by simpa using hs⟩

/-- Witness for C10: two requests on different sessions. -/
theorem c10_disposeRequestMap_exact_witness :
    (disposeRequestMap
        [mkNetworkRequest "req-a" "sess-1" 0, mkNetworkRequest "req-b" "sess-2" 0]
        "sess-1").1
      = [mkNetworkRequest "req-b" "sess-2" 0]
    ∧ (disposeRequestMap
        [mkNetworkRequest "req-a" "sess-1" 0, mkNetworkRequest "req-b" "sess-2" 0]
        "sess-1").2
      = [disposeRequest (mkNetworkRequest "req-a" "sess-1" 0)] := by
  have h := c10_disposeRequestMap_exact
    [mkNetworkRequest "req-a" "sess-1" 0, mkNetworkRequest "req-b" "sess-2" 0]
    "sess-1" (by decide)
  exact ⟨h.1.trans (by decide), h.2.1.trans (by decide)⟩

lemma find?_updateRequest (m : RequestMap) (id : String)
    (f : NetworkRequestModel → NetworkRequestModel)
    (hf : ∀ x, (f x).id = x.id) :
    getRequestById (updateRequest m id f) id = (getRequestById m id).map f := by
  induction m with
  | nil => rfl
  | cons r m ih =>
    unfold getRequestById updateRequest at *
    by_cases hr : r.id = id
    · simp [hr, hf r]
    · simp [hr, ih]

lemma filter_ne_updateRequest (m : RequestMap) (id : String)
    (f : NetworkRequestModel → NetworkRequestModel)
    (hf : ∀ x, (f x).id = x.id) :
    (updateRequest m id f).filter (fun x => ¬ x.id = id)
      = m.filter (fun x => ¬ x.id = id) := by
  induction m with
  | nil => rfl
  | cons r m ih =>
    unfold updateRequest at *
    simp only [decide_not] at ih
    by_cases hr : r.id = id
    · simp [hr, hf r, ih]
    · simp [hr, ih]

lemma ids_updateRequest (m : RequestMap) (id : String)
    (f : NetworkRequestModel → NetworkRequestModel)
    (hf : ∀ x, (f x).id = x.id) :
    (updateRequest m id f).map (fun r => r.id) = m.map (fun r => r.id) := by
  induction m with
  | nil => rfl
  | cons r m ih =>
    unfold updateRequest at *
    by_cases hr : r.id = id
    · simp [hr, hf r, ih]
    · simp [hr, ih]

lemma getRequestById_filter_ne (m : RequestMap) (id : String) :
    getRequestById (m.filter (fun x => ¬ x.id = id)) id = none := by
  unfold getRequestById
  rw [List.find?_eq_none]
  intro x hx
  have := (List.mem_filter.mp hx).2
  simpa using this

lemma find?_append_none {p : NetworkRequestModel → Bool} (l1 l2 : RequestMap)
    (h : l1.find? p = none) : (l1 ++ l2).find? p = l2.find? p := by
  induction l1 with
  | nil => rfl
  | cons a l ih =>
    by_cases hpa : p a
    · rw [List.find?_cons_of_pos _ hpa] at h
      exact absurd h (by simp)
    · rw [List.find?_cons_of_neg _ hpa] at h
      rw [List.cons_append, List.find?_cons_of_neg _ hpa]
      exact ih h

lemma listener_redirect_shape (m : RequestMap) (sess : String)
    (p : RequestWillBeSentParams) (r : NetworkRequestModel)
    (hN : (m.map (fun x => x.id)).Nodup)
    (hFind : getRequestById m p.requestId = some r)
    (hRed : r.redirecting = true) :
    onRequestWillBeSentListener m sess p
      = (m.filter (fun x => ¬ x.id = p.requestId)
           ++ [onRequestWillBeSentEvent
                (mkNetworkRequest p.requestId sess (r.redirectCount + 1)) p],
         [disposeRequest (handleRedirect r p)]) := by
  have hfRed : ∀ x, (handleRedirect x p).id = x.id := fun x => rfl
  have hNA : ((updateRequest m p.requestId (fun x => handleRedirect x p)).map
      (fun x => x.id)).Nodup := by
    rw [ids_updateRequest _ _ _ hfRed]
    exact hN
  have hA : getRequestById
      (updateRequest m p.requestId (fun x => handleRedirect x p)) p.requestId
      = some (handleRedirect r p) := by
    rw [find?_updateRequest _ _ _ hfRed, hFind]
    rfl
  have hdel : deleteRequest
      (updateRequest m p.requestId (fun x => handleRedirect x p)) p.requestId
      = (m.filter (fun x => ¬ x.id = p.requestId),
         [disposeRequest (handleRedirect r p)]) := by
    unfold deleteRequest
    rw [hA, eraseP_id_eq_filter _ _ hNA, filter_ne_updateRequest _ _ _ hfRed]
  have hoc : getOrCreateNetworkRequest (m.filter (fun x => ¬ x.id = p.requestId))
      p.requestId sess (r.redirectCount + 1)
      = (m.filter (fun x => ¬ x.id = p.requestId)
           ++ [mkNetworkRequest p.requestId sess (r.redirectCount + 1)],
         mkNetworkRequest p.requestId sess (r.redirectCount + 1)) := by
    unfold getOrCreateNetworkRequest
    rw [getRequestById_filter_ne]
    rfl
  have hupd : updateRequest
      (m.filter (fun x => ¬ x.id = p.requestId)
        ++ [mkNetworkRequest p.requestId sess (r.redirectCount + 1)])
      p.requestId (fun x => onRequestWillBeSentEvent x p)
      = m.filter (fun x => ¬ x.id = p.requestId)
          ++ [onRequestWillBeSentEvent
              (mkNetworkRequest p.requestId sess (r.redirectCount + 1)) p] := by
    unfold updateRequest
    rw [List.map_append]
    congr 1
    · conv_rhs => rw [← List.map_id (m.filter (fun x => ¬ x.id = p.requestId))]
      apply List.map_congr_left
      intro x hx
      have := (List.mem_filter.mp hx).2
      rw [if_neg (by simpa using this)]
      rfl
    · simp [mkNetworkRequest]
  unfold onRequestWillBeSentListener
  rw [hFind]
  dsimp only
  rw [hRed, if_pos rfl]
  simp only [hdel, hoc]
  exact congrArg (fun l => (l, [disposeRequest (handleRedirect r p)])) hupd

/-- Claim C5: when Network.requestWillBeSent arrives for a request id whose
stored request is redirecting, that request is disposed and removed from the
map, a new request is created under the same id with redirect count one
greater, and the event is replayed on the new request. -/
theorem c5_redirect_recreates_request (m : RequestMap) (sess : String)
    (p : RequestWillBeSentParams) (r : NetworkRequestModel)
    (hN : (m.map (fun x => x.id)).Nodup)
    (hFind : getRequestById m p.requestId = some r)
    (hRed : r.redirecting = true) :
    (onRequestWillBeSentListener m sess p).2
        = [disposeRequest (handleRedirect r p)]
    ∧ getRequestById (onRequestWillBeSentListener m sess p).1 p.requestId
        = some (onRequestWillBeSentEvent
            (mkNetworkRequest p.requestId sess (r.redirectCount + 1)) p)
    ∧ (∀ nr, getRequestById (onRequestWillBeSentListener m sess p).1 p.requestId
          = some nr →
        nr.redirectCount = r.redirectCount + 1 ∧ nr.seenRequestWillBeSent = [p]
          ∧ nr.disposed = false)
    ∧ r ∉ (onRequestWillBeSentListener m sess p).1 := by
  have hs := listener_redirect_shape m sess p r hN hFind hRed
  have hrid : r.id = p.requestId := by simpa using List.find?_some hFind
  have hfound : getRequestById (onRequestWillBeSentListener m sess p).1 p.requestId
      = some (onRequestWillBeSentEvent
          (mkNetworkRequest p.requestId sess (r.redirectCount + 1)) p) := by
    rw [hs]
    unfold getRequestById
    rw [find?_append_none _ _ (getRequestById_filter_ne m p.requestId)]
    rw [List.find?_cons_of_pos]
    simp [onRequestWillBeSentEvent, mkNetworkRequest]
  refine ⟨by rw [hs], hfound, ?_, ?_⟩
  · intro nr hnr
    rw [hfound] at hnr
    have hnr2 := Option.some.inj hnr
    rw [← hnr2]
    exact ⟨rfl, rfl, rfl⟩
  · rw [hs]
    intro hr2
    rcases List.mem_append.mp hr2 with h | h
    · have := (List.mem_filter.mp h).2
      rw [hrid] at this
      simp at this
    · have heq := List.mem_singleton.mp h
      have hfalse : r.redirecting = false := by rw [heq]; rfl
      rw [hRed] at hfalse
      exact absurd hfalse (by decide)

/-- Witness for C5: a single redirecting request receives a second
requestWillBeSent under its id. -/
theorem c5_redirect_recreates_request_witness :
    (onRequestWillBeSentListener
        [{ id := "req-1", fetchId := none, url := some "http://a/",
           cdpSessionId := "sess-1", redirectCount := 2, redirecting := true,
           disposed := false, seenRequestWillBeSent := [], seenRedirects := [] }]
        "sess-1" { requestId := "req-1", url := "http://b/" }).2
      = [disposeRequest (handleRedirect
          { id := "req-1", fetchId := none, url := some "http://a/",
            cdpSessionId := "sess-1", redirectCount := 2, redirecting := true,
            disposed := false, seenRequestWillBeSent := [], seenRedirects := [] }
          { requestId := "req-1", url := "http://b/" })]
    ∧ getRequestById
        (onRequestWillBeSentListener
          [{ id := "req-1", fetchId := none, url := some "http://a/",
             cdpSessionId := "sess-1", redirectCount := 2, redirecting := true,
             disposed := false, seenRequestWillBeSent := [], seenRedirects := [] }]
          "sess-1" { requestId := "req-1", url := "http://b/" }).1 "req-1"
      = some (onRequestWillBeSentEvent (mkNetworkRequest "req-1" "sess-1" 3)
          { requestId := "req-1", url := "http://b/" }) := by
  have h := c5_redirect_recreates_request
    [{ id := "req-1", fetchId := none, url := some "http://a/",
       cdpSessionId := "sess-1", redirectCount := 2, redirecting := true,
       disposed := false, seenRequestWillBeSent := [], seenRedirects := [] }]
    "sess-1" { requestId := "req-1", url := "http://b/" }
    { id := "req-1", fetchId := none, url := some "http://a/",
      cdpSessionId := "sess-1", redirectCount := 2, redirecting := true,
      disposed := false, seenRequestWillBeSent := [], seenRedirects := [] }
    (by decide) (by decide) rfl
  exact ⟨h.1, h.2.1.trans (by decide)⟩

lemma handleAttached_page_or_iframe (selfId defUC : String)
    (contexts : ContextStorage) (tid : String) (bc : Option String)
    (fresh : Nat) (wr : Bool) (ty : TargetType)
    (hType : ty = TargetType.page ∨ ty = TargetType.iframe)
    (hSelf : ¬ tid = selfId) :
    handleAttachedToTarget selfId defUC contexts ⟨ty, tid, bc⟩ fresh wr
      = match contexts.find? (fun c => c.id = tid) with
        | some _ =>
          (contexts.map (fun c =>
            if c.id = tid then { c with cdpTargetToken := fresh } else c),
           AttachOutcome.rebound tid)
        | none =>
          let userContext :=
            match bc with
            | some b => if b ≠ "" ∧ b ≠ defUC then b else "default"
            | none => "default"
          (contexts ++
            [{ id := tid, parent := none, userContext := userContext,
               cdpTargetToken := fresh }],
           AttachOutcome.created tid userContext) := by
  rcases hType with h | h <;> subst h <;>
    · unfold handleAttachedToTarget
      rw [if_neg hSelf]

/-- Claim C7 amended: a Target.attachedToTarget event for a page or iframe
target other than the mapper's self target either rebinds the existing
context with that id to the new CdpTarget (no context created or destroyed,
ids kept) or creates exactly one new top-level context whose user-context id
is targetInfo.browserContextId, defaulting to "default" when that id is
absent, is the empty string (JS-falsy, see the counterexample), or equals the
default user-context id. -/
theorem c7_attached_rebind_or_create (selfId defUC : String)
    (contexts : ContextStorage) (ti : TargetInfoModel) (fresh : Nat) (wr : Bool)
    (hType : ti.type = TargetType.page ∨ ti.type = TargetType.iframe)
    (hSelf : ¬ ti.targetId = selfId) :
    ((∃ c ∈ contexts, c.id = ti.targetId) →
      (handleAttachedToTarget selfId defUC contexts ti fresh wr).2
          = AttachOutcome.rebound ti.targetId
      ∧ ((handleAttachedToTarget selfId defUC contexts ti fresh wr).1.map
          (fun c => c.id)) = contexts.map (fun c => c.id)
      ∧ (handleAttachedToTarget selfId defUC contexts ti fresh wr).1.length
          = contexts.length
      ∧ (∀ c ∈ contexts, ¬ c.id = ti.targetId →
          c ∈ (handleAttachedToTarget selfId defUC contexts ti fresh wr).1)
      ∧ (∀ c ∈ contexts, c.id = ti.targetId →
          { c with cdpTargetToken := fresh }
            ∈ (handleAttachedToTarget selfId defUC contexts ti fresh wr).1))
    ∧ ((∀ c ∈ contexts, ¬ c.id = ti.targetId) →
      ∃ uc, (handleAttachedToTarget selfId defUC contexts ti fresh wr).1
          = contexts ++ [{ id := ti.targetId, parent := none, userContext := uc,
                           cdpTargetToken := fresh }]
        ∧ (handleAttachedToTarget selfId defUC contexts ti fresh wr).2
            = AttachOutcome.created ti.targetId uc
        ∧ (ti.browserContextId = none → uc = "default")
        ∧ (ti.browserContextId = some "" → uc = "default")
        ∧ (ti.browserContextId = some defUC → uc = "default")
        ∧ (∀ b, ti.browserContextId = some b → ¬ b = "" → ¬ b = defUC →
            uc = b)) := by
  obtain ⟨ty, tid, bc⟩ := ti
  dsimp only at hType hSelf ⊢
  have hsh := handleAttached_page_or_iframe selfId defUC contexts tid bc fresh wr
    ty hType hSelf
  constructor
  · rintro ⟨c, hcm, hcid⟩
    have hfind : ∃ c2, contexts.find? (fun c => c.id = tid) = some c2 :=
      Option.isSome_iff_exists.mp
        (List.find?_isSome.mpr ⟨c, hcm, by simpa using hcid⟩)
    obtain ⟨c2, hc2⟩ := hfind
    rw [hsh, hc2]
    dsimp only
    refine ⟨rfl, ?_, List.length_map contexts _, ?_, ?_⟩
    · rw [List.map_map]
      apply List.map_congr_left
      intro x hx
      by_cases hxid : x.id = tid
      · simp [Function.comp, hxid]
      · simp [Function.comp, hxid]
    · intro x hx hxid
      exact List.mem_map.mpr ⟨x, hx, by rw [if_neg hxid]⟩
    · intro x hx hxid
      exact List.mem_map.mpr ⟨x, hx, by rw [if_pos hxid]⟩
  · intro hnone
    have hfind : contexts.find? (fun c => c.id = tid) = none :=
      List.find?_eq_none.mpr (fun x hx => by simpa using hnone x hx)
    rw [hsh, hfind]
    dsimp only
    rcases bc with _ | b
    · exact ⟨"default", rfl, rfl, fun _ => rfl, fun h => Option.noConfusion h,
        fun h => Option.noConfusion h, fun b2 h => Option.noConfusion h⟩
    · dsimp only
      by_cases hb1 : b = ""
      · have hif : (if b ≠ "" ∧ b ≠ defUC then b else "default") = "default" :=
          if_neg (fun hcon => hcon.1 hb1)
        rw [hif]
        exact ⟨"default", rfl, rfl, fun h => Option.noConfusion h, fun _ => rfl,
          fun _ => rfl,
          fun b2 hb hne1 _ => absurd ((Option.some.inj hb) ▸ hb1) hne1⟩
      · by_cases hb2 : b = defUC
        · have hif : (if b ≠ "" ∧ b ≠ defUC then b else "default") = "default" :=
            if_neg (fun hcon => hcon.2 hb2)
          rw [hif]
          exact ⟨"default", rfl, rfl, fun h => Option.noConfusion h,
            fun h => absurd (Option.some.inj h) hb1, fun _ => rfl,
            fun b2 hb _ hne2 => absurd ((Option.some.inj hb) ▸ hb2) hne2⟩
        · have hif : (if b ≠ "" ∧ b ≠ defUC then b else "default") = b :=
            if_pos ⟨hb1, hb2⟩
          rw [hif]
          exact ⟨b, rfl, rfl, fun h => Option.noConfusion h,
            fun h => absurd (Option.some.inj h) hb1,
            fun h => absurd (Option.some.inj h) hb2,
            fun b2 hb _ _ => Option.some.inj hb⟩

/-- Witness for C7: attaching a new page target with a non-default browser
context id creates one context with that user context. -/
theorem c7_attached_rebind_or_create_witness :
    (handleAttachedToTarget "self" "default-uc"
        [{ id := "existing", parent := none, userContext := "default",
           cdpTargetToken := 0 }]
        { type := TargetType.page, targetId := "t-new",
          browserContextId := some "uc-7" } 5 false).2
      = AttachOutcome.created "t-new" "uc-7" := by
  have h := c7_attached_rebind_or_create "self" "default-uc"
    [{ id := "existing", parent := none, userContext := "default",
       cdpTargetToken := 0 }]
    { type := TargetType.page, targetId := "t-new",
      browserContextId := some "uc-7" } 5 false (Or.inl rfl) (by decide)
  obtain ⟨uc, _, h2, _, _, _, h5⟩ := h.2 (by decide)
  have huc : uc = "uc-7" := h5 "uc-7" rfl (by decide) (by decide)
  rw [huc] at h2
  exact h2

/-- Claim C7 counterexample: attaching a new page target whose targetInfo
carries browserContextId = some "" — present, and different from the default
user-context id "default-uc" — creates the context with user context
"default", not "": the code treats the JS-falsy empty string like an absent
browserContextId, refuting the claim that the user-context id is
targetInfo.browserContextId whenever it is present and differs from the
default sentinel. -/
theorem c7_attached_empty_browserContextId_counterexample :
    handleAttachedToTarget "self" "default-uc" []
        { type := TargetType.page, targetId := "t-1",
          browserContextId := some "" } 3 false
      = ([{ id := "t-1", parent := none, userContext := "default",
            cdpTargetToken := 3 }],
         AttachOutcome.created "t-1" "default")
    ∧ some "" ≠ (none : Option String)
    ∧ "" ≠ "default-uc"
    ∧ "default" ≠ "" := by
  decide

/-- Claim C1 counterexample: in the unblock run of the environment with no
network subscription, no interception and no preload scripts,
Runtime.runIfWaitingForDebugger is issued at a point where Runtime.enable has
been issued (so not skipped) but has not completed — the command is not sent
strictly after the other unblock steps complete, refuting the claim as
stated. -/
theorem c1_unblock_counterexample :
    unblockTrace c1Env
      = [UnblockEvent.issue UnblockCommand.runtimeEnable,
         UnblockEvent.issue UnblockCommand.pageEnable,
         UnblockEvent.issue UnblockCommand.pageSetLifecycleEventsEnabled,
         UnblockEvent.issue UnblockCommand.securitySetIgnoreCertificateErrors,
         UnblockEvent.issue UnblockCommand.targetSetAutoAttach]
        ++ UnblockEvent.issue UnblockCommand.runtimeRunIfWaitingForDebugger ::
          [UnblockEvent.complete UnblockCommand.runtimeEnable,
           UnblockEvent.complete UnblockCommand.pageEnable,
           UnblockEvent.complete UnblockCommand.pageSetLifecycleEventsEnabled,
           UnblockEvent.complete UnblockCommand.securitySetIgnoreCertificateErrors,
           UnblockEvent.complete UnblockCommand.targetSetAutoAttach,
           UnblockEvent.complete UnblockCommand.runtimeRunIfWaitingForDebugger]
    ∧ UnblockEvent.issue UnblockCommand.runtimeEnable
        ∈ [UnblockEvent.issue UnblockCommand.runtimeEnable,
           UnblockEvent.issue UnblockCommand.pageEnable,
           UnblockEvent.issue UnblockCommand.pageSetLifecycleEventsEnabled,
           UnblockEvent.issue UnblockCommand.securitySetIgnoreCertificateErrors,
           UnblockEvent.issue UnblockCommand.targetSetAutoAttach]
    ∧ UnblockEvent.complete UnblockCommand.runtimeEnable
        ∉ [UnblockEvent.issue UnblockCommand.runtimeEnable,
           UnblockEvent.issue UnblockCommand.pageEnable,
           UnblockEvent.issue UnblockCommand.pageSetLifecycleEventsEnabled,
           UnblockEvent.issue UnblockCommand.securitySetIgnoreCertificateErrors,
           UnblockEvent.issue UnblockCommand.targetSetAutoAttach]
    ∧ UnblockEvent.complete UnblockCommand.runtimeEnable
        ∈ [UnblockEvent.complete UnblockCommand.runtimeEnable,
           UnblockEvent.complete UnblockCommand.pageEnable,
           UnblockEvent.complete UnblockCommand.pageSetLifecycleEventsEnabled,
           UnblockEvent.complete UnblockCommand.securitySetIgnoreCertificateErrors,
           UnblockEvent.complete UnblockCommand.targetSetAutoAttach,
           UnblockEvent.complete UnblockCommand.runtimeRunIfWaitingForDebugger] := by
  decide

lemma deferredEvents_cases (env : UnblockEnv) :
    (toggleNetworkDeferredCommands env).foldr
        (fun c acc => UnblockEvent.issue c :: UnblockEvent.complete c :: acc) []
      = if env.networkSubscribed && fetchStageNeeded env.interceptionStages then
          [UnblockEvent.issue UnblockCommand.fetchEnable,
           UnblockEvent.complete UnblockCommand.fetchEnable]
        else [] := by
  unfold toggleNetworkDeferredCommands
  by_cases h : env.networkSubscribed && fetchStageNeeded env.interceptionStages <;>
    simp [h]

/-- Claim C1 amended: Runtime.runIfWaitingForDebugger is issued in the same
concurrent batch as the other unblock steps — its send is initiated exactly
once, after every other synchronously-initiated send but before any step's
completion is awaited; the only command issued after it is the Fetch.enable
continuation of the network toggle. -/
theorem c1_runIfWaitingForDebugger_batched (env : UnblockEnv) :
    (unblockTrace env).count
        (UnblockEvent.issue UnblockCommand.runtimeRunIfWaitingForDebugger) = 1
    ∧ ∃ pre post,
        unblockTrace env
          = pre ++ UnblockEvent.issue UnblockCommand.runtimeRunIfWaitingForDebugger
              :: post
        ∧ (∀ e ∈ pre, ∃ c, e = UnblockEvent.issue c)
        ∧ (∀ c, UnblockEvent.issue c ∈ post → c = UnblockCommand.fetchEnable) := by
  obtain ⟨ns, ist, pc⟩ := env
  have heq : unblockTrace ⟨ns, ist, pc⟩
      = ([UnblockCommand.runtimeEnable, UnblockCommand.pageEnable,
          UnblockCommand.pageSetLifecycleEventsEnabled,
          UnblockCommand.securitySetIgnoreCertificateErrors] ++
         toggleNetworkSyncCommands ⟨ns, ist, pc⟩ ++
         [UnblockCommand.targetSetAutoAttach] ++
         preloadInstallCommands ⟨ns, ist, pc⟩).map UnblockEvent.issue ++
        UnblockEvent.issue UnblockCommand.runtimeRunIfWaitingForDebugger ::
        ((unblockSyncIssues ⟨ns, ist, pc⟩).map UnblockEvent.complete ++
         (toggleNetworkDeferredCommands ⟨ns, ist, pc⟩).foldr
           (fun c acc => UnblockEvent.issue c :: UnblockEvent.complete c :: acc)
           []) := by
    unfold unblockTrace unblockSyncIssues
    simp [List.map_append]
  have hrA : UnblockCommand.runtimeRunIfWaitingForDebugger
      ∉ ([UnblockCommand.runtimeEnable, UnblockCommand.pageEnable,
          UnblockCommand.pageSetLifecycleEventsEnabled,
          UnblockCommand.securitySetIgnoreCertificateErrors] ++
         toggleNetworkSyncCommands ⟨ns, ist, pc⟩ ++
         [UnblockCommand.targetSetAutoAttach] ++
         preloadInstallCommands ⟨ns, ist, pc⟩) := by
    intro h
    cases ns <;>
      simp [toggleNetworkSyncCommands, preloadInstallCommands] at h
  refine ⟨?_, _, _, heq, ?_, ?_⟩
  · rw [heq, List.count_append, List.count_cons_self]
    have h1 : (([UnblockCommand.runtimeEnable, UnblockCommand.pageEnable,
          UnblockCommand.pageSetLifecycleEventsEnabled,
          UnblockCommand.securitySetIgnoreCertificateErrors] ++
         toggleNetworkSyncCommands ⟨ns, ist, pc⟩ ++
         [UnblockCommand.targetSetAutoAttach] ++
         preloadInstallCommands ⟨ns, ist, pc⟩).map UnblockEvent.issue).count
        (UnblockEvent.issue UnblockCommand.runtimeRunIfWaitingForDebugger) = 0 := by
      rw [List.count_eq_zero]
      intro hmem
      obtain ⟨a, haA, ha⟩ := List.mem_map.mp hmem
      rw [UnblockEvent.issue.injEq] at ha
      exact hrA (ha ▸ haA)
    have h2 : (((unblockSyncIssues ⟨ns, ist, pc⟩).map UnblockEvent.complete ++
         (toggleNetworkDeferredCommands ⟨ns, ist, pc⟩).foldr
           (fun c acc => UnblockEvent.issue c :: UnblockEvent.complete c :: acc)
           []).count
        (UnblockEvent.issue UnblockCommand.runtimeRunIfWaitingForDebugger)) = 0 := by
      rw [List.count_eq_zero]
      intro hmem
      rcases List.mem_append.mp hmem with h | h
      · obtain ⟨a, _, ha⟩ := List.mem_map.mp h
        exact UnblockEvent.noConfusion ha
      · rw [deferredEvents_cases] at h
        by_cases hf : ns && fetchStageNeeded ist <;> simp [hf] at h
    rw [h1, h2]
  · intro e he
    obtain ⟨c, _, hc⟩ := List.mem_map.mp he
    exact ⟨c, hc.symm⟩
  · intro c hc
    rcases List.mem_append.mp hc with h | h
    · obtain ⟨a, _, ha⟩ := List.mem_map.mp h
      exact UnblockEvent.noConfusion ha
    · rw [deferredEvents_cases] at h
      by_cases hf : ns && fetchStageNeeded ist <;> simp [hf] at h
      · exact h
